import Mathlib

/-!
Verification of the wyag object store (src/object.rs, src/commands.rs).

Rust byte slices (`&[u8]`, `Vec<u8>`) are modelled as `List Nat`; Rust `String`
and `str` values are modelled by their UTF-8 byte sequences, also `List Nat`.
Fallible Rust code returning `Result<_, String>` is modelled with `RRes`, which
additionally has a `panic` outcome for Rust panics (failed slice indexing,
`unwrap`, `expect`, `todo!`, `BTreeMap` indexing) and a `diverge` outcome used
when a loop in the source does not terminate (fuel exhaustion).
-/

namespace Wyag

/-- Outcome of running a piece of Rust code: a value, an `Err` return, a
process-aborting panic, or divergence (non-termination). -/
inductive RRes (α : Type) where
  | ok (a : α)
  | err (e : String)
  | panic (msg : String)
  | diverge
deriving DecidableEq, Repr

def RRes.bind {α β : Type} : RRes α → (α → RRes β) → RRes β
  | .ok a, f => f a
  | .err e, _ => .err e
  | .panic m, _ => .panic m
  | .diverge, _ => .diverge

def RRes.map {α β : Type} (f : α → β) : RRes α → RRes β
  | .ok a => .ok (f a)
  | .err e => .err e
  | .panic m => .panic m
  | .diverge => .diverge

def RRes.isOk {α : Type} : RRes α → Bool
  | .ok _ => true
  | _ => false

def RRes.isPanic {α : Type} : RRes α → Bool
  | .panic _ => true
  | _ => false

/-- Bytes of a Rust byte string / the UTF-8 bytes of a Rust string. -/
abbrev Bytes := List Nat

/-- Bytes of an ASCII Lean string literal (used for the literals in the source). -/
def strBytes (s : String) : Bytes := s.data.map Char.toNat

/-- `iter().position(|i| *i == t)`: index of the first occurrence of byte `t`. -/
def findByte (t : Nat) : Bytes → Option Nat
  | [] => none
  | b :: rest => if b = t then some 0 else (findByte t rest).map (· + 1)

/-- Rust byte-slice indexing `&bytes[a..b]`: panics when `a > b` or `b > len`. -/
def sliceRange (s : Bytes) (a b : Nat) : RRes Bytes :=
  if a ≤ b ∧ b ≤ s.length then .ok ((s.drop a).take (b - a))
  else .panic "slice index out of range"

/-- A UTF-8 continuation byte (`10xxxxxx`). -/
def contByte (b : Nat) : Bool := 128 ≤ b && b ≤ 191

/-- `str::is_char_boundary`. -/
def isBoundary (s : Bytes) (i : Nat) : Bool :=
  if i = 0 then true
  else if i = s.length then true
  else match s[i]? with
    | some b => !contByte b
    | none => false

/-- Rust `str` slicing `&s[a..b]`: panics when out of range or when either end
is not a character boundary. -/
def strSlice (s : Bytes) (a b : Nat) : RRes Bytes :=
  if a ≤ b ∧ b ≤ s.length ∧ isBoundary s a = true ∧ isBoundary s b = true then
    .ok ((s.drop a).take (b - a))
  else .panic "byte index is not a char boundary"

/-- Strict UTF-8 validity, as checked by `str::from_utf8` (no overlong forms,
no surrogates, maximum code point 0x10FFFF). -/
def validUtf8Aux : Nat → Bytes → Bool
  | 0, _ => false
  | _ + 1, [] => true
  | fuel + 1, b :: rest =>
    if b ≤ 127 then validUtf8Aux fuel rest
    else if 194 ≤ b ∧ b ≤ 223 then
      decide (1 ≤ rest.length) && contByte (rest.getD 0 0) && validUtf8Aux fuel (rest.drop 1)
    else if b = 224 then
      decide (2 ≤ rest.length) && (160 ≤ rest.getD 0 0 && rest.getD 0 0 ≤ 191) &&
        contByte (rest.getD 1 0) && validUtf8Aux fuel (rest.drop 2)
    else if 225 ≤ b ∧ b ≤ 236 then
      decide (2 ≤ rest.length) && contByte (rest.getD 0 0) && contByte (rest.getD 1 0) &&
        validUtf8Aux fuel (rest.drop 2)
    else if b = 237 then
      decide (2 ≤ rest.length) && (128 ≤ rest.getD 0 0 && rest.getD 0 0 ≤ 159) &&
        contByte (rest.getD 1 0) && validUtf8Aux fuel (rest.drop 2)
    else if 238 ≤ b ∧ b ≤ 239 then
      decide (2 ≤ rest.length) && contByte (rest.getD 0 0) && contByte (rest.getD 1 0) &&
        validUtf8Aux fuel (rest.drop 2)
    else if b = 240 then
      decide (3 ≤ rest.length) && (144 ≤ rest.getD 0 0 && rest.getD 0 0 ≤ 191) &&
        contByte (rest.getD 1 0) && contByte (rest.getD 2 0) && validUtf8Aux fuel (rest.drop 3)
    else if 241 ≤ b ∧ b ≤ 243 then
      decide (3 ≤ rest.length) && contByte (rest.getD 0 0) && contByte (rest.getD 1 0) &&
        contByte (rest.getD 2 0) && validUtf8Aux fuel (rest.drop 3)
    else if b = 244 then
      decide (3 ≤ rest.length) && (128 ≤ rest.getD 0 0 && rest.getD 0 0 ≤ 143) &&
        contByte (rest.getD 1 0) && contByte (rest.getD 2 0) && validUtf8Aux fuel (rest.drop 3)
    else false

def validUtf8 (l : Bytes) : Bool := validUtf8Aux (l.length + 1) l

/-- Byte length of the UTF-8 character starting with byte `b`. -/
def utf8Len (b : Nat) : Nat :=
  if b < 128 then 1 else if b < 224 then 2 else if b < 240 then 3 else 4

/-- First byte of the `k`-th character of a valid UTF-8 string: models
`s.chars().nth(k)` when the result is only compared against an ASCII char. -/
def charsNthAux : Nat → Bytes → Nat → Option Nat
  | 0, _, _ => none
  | _ + 1, [], _ => none
  | _ + 1, b :: _, 0 => some b
  | fuel + 1, b :: rest, k + 1 => charsNthAux fuel (rest.drop (utf8Len b - 1)) k

def charsNth (s : Bytes) (k : Nat) : Option Nat := charsNthAux (s.length + 1) s k

/-- ASCII decimal digit test for `str::parse`. -/
def isDigitB (c : Nat) : Bool := Nat.ble 48 c && Nat.ble c 57

/-- Numeric value of an ASCII digit string. -/
def decValue (b : Bytes) : Nat := b.foldl (fun a c => a * 10 + (c - 48)) 0

/-- Model of `str::parse` into an unsigned integer type bounded by `bound`:
an optional leading plus sign, then at least one digit, rejecting overflow. -/
def parseNatBounded (bound : Nat) (b : Bytes) : Option Nat :=
  let digits := if b.head? = some 43 then b.tail else b
  if digits = [] then none
  else if digits.all isDigitB then
    if decValue digits < bound then some (decValue digits) else none
  else none

/-- `str::parse::<u32>`. -/
def parseU32 (b : Bytes) : Option Nat := parseNatBounded 4294967296 b

/-- `str::parse::<usize>` (64-bit target). -/
def parseUsize (b : Bytes) : Option Nat := parseNatBounded 18446744073709551616 b

/-- `format!` of a `Nat` in decimal (auxiliary, fuelled). -/
def natDecimalAux : Nat → Nat → Bytes
  | 0, _ => []
  | _ + 1, 0 => []
  | fuel + 1, n => natDecimalAux fuel (n / 10) ++ [48 + n % 10]

/-- `format!` rendering of a nonnegative integer in decimal. -/
def natDecimal (n : Nat) : Bytes :=
  if n = 0 then [48] else natDecimalAux (n + 1) n

/-- One digit of `format!` with the upper hex specifier. -/
def hexDigitUpper (n : Nat) : Nat := if n < 10 then 48 + n else 55 + n

def hexUpperAux : Nat → Nat → Bytes
  | 0, _ => []
  | _ + 1, 0 => []
  | fuel + 1, n => hexUpperAux fuel (n / 16) ++ [hexDigitUpper (n % 16)]

/-- `format!` with the upper hex specifier and no width: uppercase hex digits of
`n` with NO zero padding (a byte below 16 renders as a single character). -/
def hexUpper (n : Nat) : Bytes :=
  if n = 0 then [48] else hexUpperAux (n + 1) n

def hexDigitLower (n : Nat) : Nat := if n < 10 then 48 + n else 87 + n

/-- Two lowercase hex characters for one byte (as in `Sha1::result_str`). -/
def hexPadLower (b : Nat) : Bytes := [hexDigitLower (b / 16), hexDigitLower (b % 16)]

/-- First-match association-list lookup. -/
def lookupAssoc {κ ν : Type} [DecidableEq κ] : List (κ × ν) → κ → Option ν
  | [], _ => none
  | (k, v) :: rest, q => if k = q then some v else lookupAssoc rest q

/- ----------------------------------------------------------------
   kvlm (key-value list with message) parsing and serialization,
   from `kvlm_parse`, `kvlm_parse_inner`, `kvlm_serializie` in object.rs.
   The Rust `BTreeMap<String, Vec<String>>` is modelled as an association
   list kept sorted by key (byte-lexicographic order), which is the order
   `BTreeMap::iter` yields.
   ---------------------------------------------------------------- -/

abbrev Kvlm := List (Bytes × List Bytes)

/-- Byte-lexicographic strict order on byte strings (the `Ord` of Rust
`String` keys in a `BTreeMap`). -/
def bytesLt : Bytes → Bytes → Bool
  | [], [] => false
  | [], _ :: _ => true
  | _ :: _, [] => false
  | x :: xs, y :: ys => if x < y then true else if y < x then false else bytesLt xs ys

/-- `map.entry(key).or_default().push(value)` on a sorted association list. -/
def entryPush : Kvlm → Bytes → Bytes → Kvlm
  | [], k, v => [(k, [v])]
  | (k0, vs) :: rest, k, v =>
    if k0 = k then (k0, vs ++ [v]) :: rest
    else if bytesLt k k0 then (k, [v]) :: (k0, vs) :: rest
    else (k0, vs) :: entryPush rest k v

/-- `map.insert(key, vec![v])` on a sorted association list. -/
def insertReplace : Kvlm → Bytes → Bytes → Kvlm
  | [], k, v => [(k, [v])]
  | (k0, vs) :: rest, k, v =>
    if k0 = k then (k0, [v]) :: rest
    else if bytesLt k k0 then (k, [v]) :: (k0, vs) :: rest
    else (k0, vs) :: insertReplace rest k v

/-- The value-accumulation loop inside `kvlm_parse_inner`. Returns the final
`inner` slice and the accumulated `value`. When the byte after the newline at
relative index 0 is a space, the loop body restores the identical state and the
source loops forever; the fuel (chosen larger than any possible number of
shrinking steps) then runs out and the outcome is `diverge`. -/
def kvlmLoop : Nat → Bytes → Bytes → RRes (Bytes × Bytes)
  | 0, _, _ => .diverge
  | fuel + 1, inner, value =>
    match findByte 10 inner with
    | some n =>
      (strSlice inner 1 (n + 1)).bind fun seg =>
        if charsNth inner (n + 1) ≠ some 32 then .ok (inner.drop n, value ++ seg)
        else kvlmLoop fuel (inner.drop n) (value ++ seg)
    | none => .ok (inner, value)

/-- `kvlm_parse_inner`. The outer recursion always recurses on a strictly
shorter suffix, so the fuel chosen by `kvlm_parse` never runs out for it. -/
def kvlm_parse_inner : Nat → Bytes → Kvlm → RRes Kvlm
  | 0, _, _ => .diverge
  | fuel + 1, raw, map =>
    match findByte 32 raw, findByte 10 raw with
    | some spc, some nl =>
      if nl < spc then
        if nl ≠ 0 then .panic "not yet implemented: return error here"
        else
          (strSlice raw 1 raw.length).bind fun msg =>
            .ok (insertReplace map (strBytes "message") msg)
      else
        (kvlmLoop (raw.length + 2) raw []).bind fun p =>
          kvlm_parse_inner fuel p.1 (entryPush map (raw.take spc) p.2)
    | _, _ => .ok map

/-- `kvlm_parse` (the argument is the UTF-8 byte sequence of the `&str`). -/
def kvlm_parse (raw : Bytes) : RRes Kvlm :=
  kvlm_parse_inner (raw.length + 2) raw []

/-- `line.replace("\n", "\n ")`. -/
def replaceNl (l : Bytes) : Bytes :=
  (l.map (fun b => if b = 10 then [10, 32] else [b])).flatten

/-- The bytes `kvlm_serializie` emits for one non-message map entry: the key
once, then for each value the key again, a space, the value with newlines
space-escaped, and a newline. -/
def kvlmEntryOut (k : Bytes) (vs : List Bytes) : Bytes :=
  k ++ (vs.map (fun line => k ++ [32] ++ replaceNl line ++ [10])).flatten

/-- `kvlm_serializie`: panics (`BTreeMap` indexing / `Vec` indexing) when the
map has no `message` entry or its value list is empty. -/
def kvlm_serializie (m : Kvlm) : RRes Bytes :=
  let out := (m.map (fun e => if e.1 = strBytes "message" then [] else kvlmEntryOut e.1 e.2)).flatten
  match lookupAssoc m (strBytes "message") with
  | none => .panic "key not found in map"
  | some vs =>
    match vs.head? with
    | none => .panic "index out of bounds"
    | some msg => .ok (out ++ [10] ++ msg)

/-- `Commit::deserialize`: `str::from_utf8(bytes).unwrap()` panics on invalid
UTF-8, then `kvlm_parse`. -/
def commitDeserialize (bytes : Bytes) : RRes Kvlm :=
  if validUtf8 bytes then kvlm_parse bytes else .panic "invalid utf-8"

/- ----------------------------------------------------------------
   Tree objects: `TreeLeaf`, `Tree` and their (de)serialization.
   ---------------------------------------------------------------- -/

structure TreeLeaf where
  mode : Nat
  path : Bytes
  sha : Bytes
deriving DecidableEq, Repr

structure Tree where
  leaves : List TreeLeaf
deriving DecidableEq, Repr

/-- `hex_digit_to_num`: only `0`-`9` and uppercase `A`-`F` are accepted. -/
def hex_digit_to_num (digit : Nat) : Option Nat :=
  if 48 ≤ digit ∧ digit ≤ 57 then some (digit - 48)
  else if 65 ≤ digit ∧ digit ≤ 70 then some (digit - 55)
  else none

/-- `TreeLeaf::sha_to_bytes`: `chunks_exact(2)` over the bytes of the sha (a
trailing unpaired byte is ignored); each `hex_digit_to_num(..).unwrap()`
panics on a byte outside `0-9A-F`. -/
def sha_to_bytes : Bytes → RRes Bytes
  | a :: b :: rest =>
    match hex_digit_to_num b, hex_digit_to_num a with
    | some lo, some hi => (sha_to_bytes rest).map (fun r => (hi * 16 + lo) :: r)
    | _, _ => .panic "called Option unwrap on a None value"
  | _ => .ok []

/-- `TreeLeaf::serialize`: decimal mode, space, path bytes, NUL, sha bytes. -/
def TreeLeaf.serialize (l : TreeLeaf) : RRes Bytes :=
  (sha_to_bytes l.sha).map fun shaB =>
    natDecimal l.mode ++ [32] ++ l.path ++ [0] ++ shaB

/-- `Tree::serialize`: the serializations of the leaves concatenated in order. -/
def serializeLeaves : List TreeLeaf → RRes Bytes
  | [] => .ok []
  | l :: rest =>
    (TreeLeaf.serialize l).bind fun b =>
      (serializeLeaves rest).map (fun r => b ++ r)

def Tree.serialize (t : Tree) : RRes Bytes := serializeLeaves t.leaves

/-- The hex rendering in `TreeLeaf::deserialize`:
`sha += &format!(..upper hex.., sha_bytes[i])` for each of the 20 bytes
(uppercase, and crucially without zero padding). -/
def shaRender (l : Bytes) : Bytes := (l.map hexUpper).flatten

/-- `TreeLeaf::deserialize`. Note the source computes `nul_pos` relative to
the sub-slice starting after the space but then uses it as an absolute index
into `bytes`, so the slices below are the (buggy) ones the source takes. -/
def TreeLeaf.deserialize (bytes : Bytes) : RRes (Bytes × TreeLeaf) :=
  match findByte 32 bytes with
  | none => .err "Error parsing tree node, expected space"
  | some spc_pos =>
    if spc_pos = 5 ∨ spc_pos = 6 then
      if validUtf8 (bytes.take spc_pos) then
        match parseU32 (bytes.take spc_pos) with
        | none => .err "Error parsing mode"
        | some mode =>
          match findByte 0 (bytes.drop (spc_pos + 1)) with
          | none => .err "Error parsing tree node, expected nul terminator"
          | some nul_pos =>
            (sliceRange bytes (spc_pos + 1) nul_pos).bind fun path_bytes =>
              if validUtf8 path_bytes then
                (sliceRange bytes (nul_pos + 1) (nul_pos + 21)).bind fun sha_bytes =>
                  if sha_bytes.length < 20 then
                    .err "Error: expected 20 bytes for the hash"
                  else
                    .ok (bytes.drop (nul_pos + 21),
                      { mode := mode, path := path_bytes, sha := shaRender sha_bytes })
              else .err "Error reading path"
      else .err "Error reading mode"
    else .err "Mode string wrong length. Expected 5 or 6 bytes"

/-- The `while let Ok(..)` loop of `Tree::deserialize`: leaf parse errors end
the loop (the leaves so far are returned as a successful parse); leaf panics
propagate. Each successful step consumes at least 21 bytes, so the fuel
supplied by `Tree.deserialize` never runs out. -/
def treeLoop : Nat → Bytes → List TreeLeaf → RRes Tree
  | 0, _, _ => .diverge
  | fuel + 1, bytes, acc =>
    match TreeLeaf.deserialize bytes with
    | .ok (b, leaf) => treeLoop fuel b (acc ++ [leaf])
    | .err _ => .ok { leaves := acc }
    | .panic m => .panic m
    | .diverge => .diverge

/-- `Tree::deserialize`: infallible by type; stops at the first leaf error. -/
def Tree.deserialize (bytes : Bytes) : RRes Tree :=
  treeLoop (bytes.length + 1) bytes []

/- ----------------------------------------------------------------
   The object variants and the framed read path (`object_read`).
   ---------------------------------------------------------------- -/

/-- `ObjectSelect`: the closed union of in-memory object variants. A `Commit`
holds its kvlm map; a `Blob` its raw bytes; `Tag` is a unit struct. -/
inductive Obj where
  | commit (inner : Kvlm)
  | tag
  | tree (t : Tree)
  | blob (data : Bytes)
deriving DecidableEq, Repr

/-- `Object::fmt_header` as bytes. -/
def fmtHeaderBytes : Obj → Bytes
  | .commit _ => strBytes "commit"
  | .tag => strBytes "tag"
  | .tree _ => strBytes "tree"
  | .blob _ => strBytes "blob"

/-- `Object::serialize` dispatched over the variants. `Tag::serialize` is
`todo!` in the source and panics. -/
def serializeObj : Obj → RRes Bytes
  | .commit m => kvlm_serializie m
  | .tag => .panic "not yet implemented: serialize tag"
  | .tree t => Tree.serialize t
  | .blob d => .ok d

/-- The frame-parsing core of `object_read`, applied to the decompressed
bytes of the object file (file lookup, opening and zlib decoding are I/O with
external crates and are modelled as already done; their failures are the
`NotFound`/`Corrupt` cases, which precede everything modelled here). The size
field is read with `str::from_utf8(..).expect(..)`, a panic on invalid UTF-8. -/
def object_read_raw (raw_bytes : Bytes) : RRes Obj :=
  match findByte 32 raw_bytes with
  | none => .err "Format error, no space byte found"
  | some space_idx =>
    match findByte 0 raw_bytes with
    | none => .err "Format error, no nul byte found"
    | some nul_idx =>
      (sliceRange raw_bytes (space_idx + 1) nul_idx).bind fun size_bytes =>
        if validUtf8 size_bytes then
          match parseUsize size_bytes with
          | none => .err "could not parse size field as a number"
          | some size =>
            if size ≠ raw_bytes.length - nul_idx - 1 then
              .err "Malformed object: bad length"
            else
              let payload := raw_bytes.drop (nul_idx + 1)
              if raw_bytes.take space_idx = strBytes "commit" then
                (commitDeserialize payload).map Obj.commit
              else if raw_bytes.take space_idx = strBytes "tree" then
                (Tree.deserialize payload).map Obj.tree
              else if raw_bytes.take space_idx = strBytes "tag" then
                .panic "not yet implemented: deserialize tag"
              else if raw_bytes.take space_idx = strBytes "blob" then
                .ok (Obj.blob payload)
              else .err "Unknown object type"
        else .panic "valid utf8 for size field"

/- ----------------------------------------------------------------
   SHA-1 (the `Sha1` type of the `crypto` crate, an external dependency).
   Modelled from the spec: a deterministic cryptographic hash with a fixed
   20-byte output, rendered by `result_str` as 40 lowercase hex characters.
   Implemented here as the actual SHA-1 function so digests are concrete.
   ---------------------------------------------------------------- -/

def w32 (n : Nat) : Nat := n % 4294967296

def rotl (n x : Nat) : Nat := w32 (x <<< n) ||| (x >>> (32 - n))

/-- Big-endian bytes of `n`, `k` bytes wide. -/
def beBytes : Nat → Nat → Bytes
  | 0, _ => []
  | k + 1, n => beBytes k (n / 256) ++ [n % 256]

/-- SHA-1 message padding. -/
def sha1Pad (msg : Bytes) : Bytes :=
  msg ++ [128] ++ List.replicate ((64 + 56 - (msg.length + 1) % 64) % 64) 0 ++
    beBytes 8 (8 * msg.length)

/-- Split a padded message into 64-byte blocks. -/
def chunk64Aux : Nat → Bytes → List Bytes
  | 0, _ => []
  | _ + 1, [] => []
  | fuel + 1, b :: rest => ((b :: rest).take 64) :: chunk64Aux fuel ((b :: rest).drop 64)

def chunk64 (l : Bytes) : List Bytes := chunk64Aux (l.length + 1) l

/-- Big-endian 32-bit words of a block. -/
def toWords : Bytes → List Nat
  | b0 :: b1 :: b2 :: b3 :: rest => (((b0 * 256 + b1) * 256 + b2) * 256 + b3) :: toWords rest
  | _ => []

/-- Message-schedule extension; `acc` holds the words produced so far, newest
first. -/
def sha1ExtendAux : Nat → List Nat → List Nat
  | 0, acc => acc
  | k + 1, acc =>
    sha1ExtendAux k
      (rotl 1 (acc.getD 2 0 ^^^ acc.getD 7 0 ^^^ acc.getD 13 0 ^^^ acc.getD 15 0) :: acc)

def sha1Schedule (chunk : Bytes) : List Nat :=
  (sha1ExtendAux 64 (toWords chunk).reverse).reverse

def sha1Rounds : Nat → List Nat → Nat × Nat × Nat × Nat × Nat → Nat × Nat × Nat × Nat × Nat
  | _, [], st => st
  | i, w :: ws, (a, b, c, d, e) =>
    let f :=
      if i < 20 then (b &&& c) ||| ((4294967295 ^^^ b) &&& d)
      else if i < 40 then b ^^^ c ^^^ d
      else if i < 60 then (b &&& c) ||| (b &&& d) ||| (c &&& d)
      else b ^^^ c ^^^ d
    let k :=
      if i < 20 then 1518500249
      else if i < 40 then 1859775393
      else if i < 60 then 2400959708
      else 3395469782
    sha1Rounds (i + 1) ws (w32 (rotl 5 a + f + e + k + w), a, rotl 30 b, c, d)

def sha1Block (h : Nat × Nat × Nat × Nat × Nat) (chunk : Bytes) :
    Nat × Nat × Nat × Nat × Nat :=
  let (h0, h1, h2, h3, h4) := h
  let (a, b, c, d, e) := sha1Rounds 0 (sha1Schedule chunk) (h0, h1, h2, h3, h4)
  (w32 (h0 + a), w32 (h1 + b), w32 (h2 + c), w32 (h3 + d), w32 (h4 + e))

/-- The 20 SHA-1 digest bytes of a message. -/
def sha1Bytes (msg : Bytes) : Bytes :=
  let hs := (chunk64 (sha1Pad msg)).foldl sha1Block
    (1732584193, 4023233417, 2562383102, 271733878, 3285377520)
  beBytes 4 hs.1 ++ beBytes 4 hs.2.1 ++ beBytes 4 hs.2.2.1 ++
    beBytes 4 hs.2.2.2.1 ++ beBytes 4 hs.2.2.2.2

/-- `Sha1::result_str`: 40 lowercase hex characters. -/
def sha1HexLower (msg : Bytes) : Bytes := ((sha1Bytes msg).map hexPadLower).flatten

/- ----------------------------------------------------------------
   The object store write path (`object_write`).
   ---------------------------------------------------------------- -/

/-- The on-disk object store, as a map from paths (relative to the gitdir) to
file contents. Directory creation by `repo_file(.., true)` is implicit. -/
abbrev FS := List (Bytes × Bytes)

/-- `format!` of the object path `objects/xx/rest` from the 40 hex digits. -/
def objects_path (hex : Bytes) : Bytes :=
  strBytes "objects/" ++ hex.take 2 ++ [47] ++ hex.drop 2

/-- `flate2` zlib compression (external crate). Modelled from the spec:
a deterministic, lossless, pure transform; modelled as the identity coding. -/
def compress (b : Bytes) : Bytes := b

/-- Writing with `OpenOptions::new().create(true).write(true)` and no
truncation: bytes are written from offset zero over any existing content. -/
def fsWrite : FS → Bytes → Bytes → FS
  | [], p, d => [(p, d)]
  | (q, old) :: rest, p, d =>
    if q = p then (q, d ++ old.drop d.length) :: rest
    else (q, old) :: fsWrite rest p d

/-- The frame `object_write` hashes and stores: kind tag, space, decimal
payload length, NUL, payload. -/
def frameBytes (obj : Obj) (data : Bytes) : Bytes :=
  fmtHeaderBytes obj ++ [32] ++ natDecimal data.length ++ [0] ++ data

/-- `object_write`: serializes, frames, hashes; when `persist` is set
(a `Some(repo)` argument in the source) also writes the compressed frame at
the digest-derived path. The digest is computed in either mode. -/
def object_write (persist : Bool) (fs : FS) (obj : Obj) : RRes Bytes × FS :=
  match serializeObj obj with
  | .ok data =>
    let hex_out := sha1HexLower (frameBytes obj data)
    if persist then
      (.ok hex_out, fsWrite fs (objects_path hex_out) (compress (frameBytes obj data)))
    else (.ok hex_out, fs)
  | .err e => (.err e, fs)
  | .panic m => (.panic m, fs)
  | .diverge => (.diverge, fs)

/- ----------------------------------------------------------------
   Checkout (`cmd_checkout` and `tree_checkout` in commands.rs).
   The object store is modelled as a map from digest strings to the objects
   `object_read` would return for them; the target filesystem as a list of
   created entries keyed by component paths.
   ---------------------------------------------------------------- -/

inductive CEntry where
  | dir
  | file (data : Bytes)
deriving DecidableEq, Repr

abbrev CPath := List Bytes

abbrev CheckFs := List (CPath × CEntry)

abbrev Store := List (Bytes × Obj)

/-- `object_read(repo, sha)` as seen by checkout: resolve the digest in the
store, an error when the object file does not exist. -/
def storeRead (store : Store) (sha : Bytes) : RRes Obj :=
  match lookupAssoc store sha with
  | some o => .ok o
  | none => .err "Could not open file to read in object read"

def fsHas (fs : CheckFs) (p : CPath) : Bool := (lookupAssoc fs p).isSome

def isDirAt (fs : CheckFs) (p : CPath) : Bool :=
  match lookupAssoc fs p with
  | some CEntry.dir => true
  | _ => false

/-- `read_dir(..).count()`: the number of entries directly under `p`. -/
def countChildren (fs : CheckFs) (p : CPath) : Nat :=
  (fs.filter (fun e => Nat.beq e.1.length (p.length + 1) && decide (e.1.take p.length = p))).length

/-- The leaf loop of `tree_checkout`. Faithful to the source, the `Tree` arm ends
with `return tree_checkout(repo, &t, dest)`: the result of the recursion is
returned as the WHOLE result of the call and the remaining leaves of the current
tree are never visited. `fs::create_dir(..).expect(..)` and the
`create_new(true)` file open `.expect(..)` panic when the entry exists. -/
def tco : Nat → Store → List TreeLeaf → CPath → CheckFs → RRes CheckFs
  | 0, _, _, _, _ => .diverge
  | _ + 1, _, [], _, fs => .ok fs
  | fuel + 1, store, leaf :: rest, path, fs =>
    match storeRead store leaf.sha with
    | .ok obj =>
      match obj with
      | .tree t2 =>
        if fsHas fs (path ++ [leaf.path]) then .panic "create dir in checkout"
        else tco fuel store t2.leaves (path ++ [leaf.path])
          (fs ++ [(path ++ [leaf.path], CEntry.dir)])
      | .blob b =>
        if fsHas fs (path ++ [leaf.path]) then .panic "open file in checkout"
        else tco fuel store rest path (fs ++ [(path ++ [leaf.path], CEntry.file b)])
      | _ => tco fuel store rest path fs
    | .err e => .err e
    | .panic m => .panic m
    | .diverge => .diverge

def tree_checkout (fuel : Nat) (store : Store) (t : Tree) (path : CPath) (fs : CheckFs) :
    RRes CheckFs :=
  tco fuel store t.leaves path fs

/-- The tree-resolution step of `cmd_checkout`: a tree is used directly; a
commit `tree` field (first value, `Vec` indexing panics when empty) must
resolve to a tree; anything else is an error. -/
def cmdGetTree (store : Store) (obj : Obj) : RRes Tree :=
  match obj with
  | .tree t => .ok t
  | .commit c =>
    match lookupAssoc c (strBytes "tree") with
    | none => .err "Commit does not have a tree"
    | some vals =>
      match vals.head? with
      | none => .panic "index out of bounds"
      | some tsha =>
        (storeRead store tsha).bind fun o2 =>
          match o2 with
          | .tree t => .ok t
          | _ => .err "tree field points to an object which is not a tree"
  | _ => .err "Object is not a commit or tree"

/-- `cmd_checkout` after the object to check out has been read: resolve the
tree, validate the target (must be a not-yet-existing path, or an existing
empty directory) before any mutation, create the target directory when
missing, then materialize. -/
def cmd_checkout (fuel : Nat) (store : Store) (obj : Obj) (target : CPath) (fs : CheckFs) :
    RRes CheckFs :=
  match cmdGetTree store obj with
  | .ok t =>
    if fsHas fs target then
      if !isDirAt fs target then .err "target is not a directory"
      else if countChildren fs target ≠ 0 then .err "target is not empty"
      else tree_checkout fuel store t target fs
    else tree_checkout fuel store t target (fs ++ [(target, CEntry.dir)])
  | .err e => .err e
  | .panic m => .panic m
  | .diverge => .diverge

/- ----------------------------------------------------------------
   Auxiliary definitions and concrete inputs used by the theorems below.
   ---------------------------------------------------------------- -/

/-- All complete leading two-byte pairs of a sha consist of bytes accepted by
`hex_digit_to_num` (a trailing unpaired byte is not examined, matching
`chunks_exact(2)`). -/
def pairsValid : Bytes → Bool
  | a :: b :: rest => (hex_digit_to_num a).isSome && (hex_digit_to_num b).isSome && pairsValid rest
  | _ => true

/-- The frame layout handled by `object_read`: kind tag, space, size field,
NUL, payload. -/
def frameRaw (fmt size payload : Bytes) : Bytes := fmt ++ 32 :: (size ++ 0 :: payload)

/-- A canonical well-formed Tree payload with a single leaf
`100644 a.txt NUL <20 digest bytes 0xAB>`. -/
def c1TreePayload : Bytes := strBytes "100644 a.txt" ++ 0 :: List.replicate 20 171

/-- A 40-character (lowercase hex) digest used in the Commit scenario. -/
def c2Digest : Bytes := List.replicate 40 97

/-- The Commit payload of the spec scenario:
`tree <digest> NL parent <digest> NL NL Initial commit NL`. -/
def c2Payload : Bytes :=
  strBytes "tree " ++ c2Digest ++ [10] ++ strBytes "parent " ++ c2Digest ++ [10, 10] ++
    strBytes "Initial commit" ++ [10]

/-- What `kvlm_parse` actually produces on `c2Payload`. -/
def c2BuggyMap : Kvlm :=
  [(strBytes "message",
      [strBytes "parent " ++ c2Digest ++ [10, 10] ++ strBytes "Initial commit" ++ [10]]),
   (strBytes "tree", [strBytes "ree " ++ c2Digest ++ [10]])]

/-- What the spec scenario says the parse should produce. -/
def c2ClaimedMap : Kvlm :=
  [(strBytes "message", [strBytes "Initial commit" ++ [10]]),
   (strBytes "parent", [c2Digest]),
   (strBytes "tree", [c2Digest])]

/-- What `kvlm_serializie` actually produces on `c2BuggyMap`. -/
def c2RoundTrip : Bytes :=
  strBytes "treetree ree " ++ c2Digest ++ [10, 32, 10, 10] ++ strBytes "parent " ++ c2Digest ++
    [10, 10] ++ strBytes "Initial commit" ++ [10]

/-- A store with an empty sub-tree under digest `t2` and a blob under `bb`. -/
def c3Store : Store :=
  [(strBytes "t2", Obj.tree { leaves := [] }),
   (strBytes "bb", Obj.blob (strBytes "hi"))]

/-- A tree whose first leaf is the sub-tree `d` and whose second leaf is the
blob `f`. -/
def c3Tree : Tree :=
  { leaves := [{ mode := 40000, path := strBytes "d", sha := strBytes "t2" },
               { mode := 100644, path := strBytes "f", sha := strBytes "bb" }] }

/-- A well-formed Tree payload with a single leaf `100644 abcdefg NUL` and 20
digest bytes `0xAB`. -/
def c8Payload : Bytes := strBytes "100644 abcdefg" ++ 0 :: List.replicate 20 171

/-- The sha string the parser renders for the single leaf of `c8Payload`:
39 characters, built from 20 bytes taken at the wrong offset, one of which is
the NUL byte rendered as a single unpadded digit. -/
def c8Sha : Bytes := strBytes "6263646566670ABABABABABABABABABABABABAB"

/- ----------------------------------------------------------------
   Helper lemmas.
   ---------------------------------------------------------------- -/

@[simp]
theorem isOk_ok {α : Type} (a : α) : (RRes.ok a).isOk = true := rfl

@[simp]
theorem isOk_err {α : Type} (e : String) : (RRes.err e : RRes α).isOk = false := rfl

@[simp]
theorem isOk_panic {α : Type} (m : String) : (RRes.panic m : RRes α).isOk = false := rfl

@[simp]
theorem isOk_diverge {α : Type} : (RRes.diverge : RRes α).isOk = false := rfl

@[simp]
theorem isPanic_ok {α : Type} (a : α) : (RRes.ok a).isPanic = false := rfl

@[simp]
theorem isPanic_err {α : Type} (e : String) : (RRes.err e : RRes α).isPanic = false := rfl

@[simp]
theorem isPanic_panic {α : Type} (m : String) : (RRes.panic m : RRes α).isPanic = true := rfl

@[simp]
theorem isPanic_diverge {α : Type} : (RRes.diverge : RRes α).isPanic = false := rfl

@[simp]
theorem map_ok {α β : Type} (f : α → β) (a : α) : RRes.map f (.ok a) = .ok (f a) := rfl

@[simp]
theorem map_err {α β : Type} (f : α → β) (e : String) :
    RRes.map f (.err e : RRes α) = .err e := rfl

@[simp]
theorem map_panic {α β : Type} (f : α → β) (m : String) :
    RRes.map f (.panic m : RRes α) = .panic m := rfl

@[simp]
theorem map_diverge {α β : Type} (f : α → β) : RRes.map f (.diverge : RRes α) = .diverge := rfl

@[simp]
theorem bind_ok {α β : Type} (a : α) (f : α → RRes β) : (RRes.ok a).bind f = f a := rfl

@[simp]
theorem bind_err {α β : Type} (e : String) (f : α → RRes β) :
    (RRes.err e : RRes α).bind f = .err e := rfl

@[simp]
theorem bind_panic {α β : Type} (m : String) (f : α → RRes β) :
    (RRes.panic m : RRes α).bind f = .panic m := rfl

@[simp]
theorem bind_diverge {α β : Type} (f : α → RRes β) :
    (RRes.diverge : RRes α).bind f = .diverge := rfl

@[simp]
theorem isOk_map {α β : Type} (f : α → β) (r : RRes α) : (RRes.map f r).isOk = r.isOk := by
  cases r <;> rfl

@[simp]
theorem isPanic_map {α β : Type} (f : α → β) (r : RRes α) : (RRes.map f r).isPanic = r.isPanic := by
  cases r <;> rfl

theorem sha_to_bytes_spec : ∀ s : Bytes,
    (sha_to_bytes s).isOk = pairsValid s ∧ (sha_to_bytes s).isPanic = (!pairsValid s)
  | [] => by simp [sha_to_bytes, pairsValid]
  | [_] => by simp [sha_to_bytes, pairsValid]
  | a :: b :: rest => by
    have ih := sha_to_bytes_spec rest
    cases h1 : hex_digit_to_num b <;> cases h2 : hex_digit_to_num a <;>
      simp [sha_to_bytes, pairsValid, h1, h2, ih.1, ih.2]

theorem serializeLeaves_spec : ∀ ls : List TreeLeaf,
    (serializeLeaves ls).isOk = ls.all (fun l => pairsValid l.sha) ∧
    (serializeLeaves ls).isPanic = ls.any (fun l => !pairsValid l.sha)
  | [] => by simp [serializeLeaves]
  | l :: rest => by
    have ih := serializeLeaves_spec rest
    have hs := sha_to_bytes_spec l.sha
    simp only [serializeLeaves, TreeLeaf.serialize, List.all_cons, List.any_cons]
    cases h : sha_to_bytes l.sha with
    | ok v =>
      have hp : pairsValid l.sha = true := by rw [← hs.1, h]; rfl
      simp [hp, ih.1, ih.2]
    | err e =>
      have hh1 := hs.1
      have hh2 := hs.2
      rw [h] at hh1 hh2
      simp at hh1 hh2
      simp [hh1] at hh2
    | panic m =>
      have hp : pairsValid l.sha = false := by
        have hh2 := hs.2
        rw [h] at hh2
        simp at hh2
        exact hh2
      simp [hp]
    | diverge =>
      have hh1 := hs.1
      have hh2 := hs.2
      rw [h] at hh1 hh2
      simp at hh1 hh2
      simp [hh1] at hh2

theorem treeLoop_not_err (fuel : Nat) (bytes : Bytes) (acc : List TreeLeaf) (e : String) :
    treeLoop fuel bytes acc ≠ RRes.err e := by
  induction fuel generalizing bytes acc with
  | zero => simp [treeLoop]
  | succ n ih =>
    simp only [treeLoop]
    cases h : TreeLeaf.deserialize bytes with
    | ok p =>
      obtain ⟨b, leaf⟩ := p
      exact ih b (acc ++ [leaf])
    | err e2 => simp
    | panic m => simp
    | diverge => simp

theorem findByte_first (t : Nat) (l r : Bytes) (h : t ∉ l) :
    findByte t (l ++ t :: r) = some l.length := by
  induction l with
  | nil => simp [findByte]
  | cons b bs ih =>
    have hb : b ≠ t := fun hbt => h (hbt ▸ List.mem_cons_self b bs)
    have hm : t ∉ bs := fun hmm => h (List.mem_cons_of_mem _ hmm)
    simp [findByte, hb, ih hm]

theorem digits_validUtf8Aux (fuel : Nat) (l : Bytes) (hf : l.length < fuel)
    (h : l.all isDigitB = true) : validUtf8Aux fuel l = true := by
  induction fuel generalizing l with
  | zero => omega
  | succ n ih =>
    cases l with
    | nil => rfl
    | cons c rest =>
      simp only [List.all_cons, Bool.and_eq_true] at h
      have hc : 48 ≤ c ∧ c ≤ 57 := by
        have h1 := h.1
        simp only [isDigitB, Bool.and_eq_true, Nat.ble_eq] at h1
        exact h1
      simp only [validUtf8Aux]
      rw [if_pos (by omega : c ≤ 127)]
      have hfr : rest.length < n := by
        simp only [List.length_cons] at hf
        omega
      exact ih rest hfr h.2

theorem digits_validUtf8 (l : Bytes) (h : l.all isDigitB = true) : validUtf8 l = true :=
  digits_validUtf8Aux (l.length + 1) l (by omega) h

theorem parseUsize_digits (l : Bytes) (h1 : l ≠ []) (h2 : l.all isDigitB = true)
    (h3 : decValue l < 18446744073709551616) :
    parseUsize l = some (decValue l) := by
  have hhead : ¬(l.head? = some 43) := by
    cases l with
    | nil => simp at h1
    | cons c rest =>
      simp only [List.head?, Option.some.injEq]
      intro hc
      simp only [List.all_cons, Bool.and_eq_true] at h2
      have := h2.1
      simp only [isDigitB, Bool.and_eq_true, Nat.ble_eq] at this
      omega
  simp only [parseUsize, parseNatBounded, if_neg hhead, if_neg h1, if_pos h2, if_pos h3]

theorem object_read_raw_frame (fmt size payload : Bytes)
    (h1 : 32 ∉ fmt) (h2 : 0 ∉ fmt) (h3 : 0 ∉ size) :
    object_read_raw (frameRaw fmt size payload) =
      (if validUtf8 size then
        match parseUsize size with
        | none => RRes.err "could not parse size field as a number"
        | some size_v =>
          if size_v ≠ payload.length then RRes.err "Malformed object: bad length"
          else
            if fmt = strBytes "commit" then (commitDeserialize payload).map Obj.commit
            else if fmt = strBytes "tree" then (Tree.deserialize payload).map Obj.tree
            else if fmt = strBytes "tag" then RRes.panic "not yet implemented: deserialize tag"
            else if fmt = strBytes "blob" then RRes.ok (Obj.blob payload)
            else RRes.err "Unknown object type"
      else RRes.panic "valid utf8 for size field") := by
  have hsp : findByte 32 (frameRaw fmt size payload) = some fmt.length :=
    findByte_first 32 fmt _ h1
  have h0n : (0 : Nat) ∉ fmt ++ [32] ++ size := by
    intro hm
    rcases List.mem_append.mp hm with hm1 | hm1
    · rcases List.mem_append.mp hm1 with hm2 | hm2
      · exact h2 hm2
      · simp at hm2
    · exact h3 hm1
  have e2 : frameRaw fmt size payload = (fmt ++ [32] ++ size) ++ 0 :: payload := by
    simp [frameRaw]
  have hnl : findByte 0 (frameRaw fmt size payload) = some (fmt.length + 1 + size.length) := by
    rw [e2, findByte_first 0 _ payload h0n]
    congr 1
    simp only [List.length_append, List.length_cons, List.length_nil]
  have hsl : sliceRange (frameRaw fmt size payload) (fmt.length + 1)
      (fmt.length + 1 + size.length) = .ok size := by
    have e1 : frameRaw fmt size payload = (fmt ++ [32]) ++ (size ++ 0 :: payload) := by
      simp [frameRaw]
    rw [sliceRange, if_pos]
    · have harith : fmt.length + 1 + size.length - (fmt.length + 1) = size.length := by omega
      rw [harith, e1]
      have hl : (fmt ++ [32]).length = fmt.length + 1 := by simp
      rw [← hl, List.drop_left, List.take_left]
    · constructor
      · omega
      · simp [frameRaw]
        omega
  have htake : (frameRaw fmt size payload).take fmt.length = fmt := by
    simp only [frameRaw]
    exact List.take_left fmt _
  have hlen : (frameRaw fmt size payload).length - (fmt.length + 1 + size.length) - 1 =
      payload.length := by
    simp only [frameRaw, List.length_append, List.length_cons]
    omega
  have hdrop : (frameRaw fmt size payload).drop (fmt.length + 1 + size.length + 1) = payload := by
    have e3 : frameRaw fmt size payload = (fmt ++ [32] ++ size ++ [0]) ++ payload := by
      simp [frameRaw]
    rw [e3]
    have hl : (fmt ++ [32] ++ size ++ [0]).length = fmt.length + 1 + size.length + 1 := by
      simp only [List.length_append, List.length_cons, List.length_nil]
    rw [← hl, List.drop_left]
  unfold object_read_raw
  simp only [hsp, hnl]
  rw [hsl]
  simp only [bind_ok, htake, hlen, hdrop]

theorem lookupAssoc_cons_none {κ ν : Type} [DecidableEq κ] {k : κ} {v : ν}
    {rest : List (κ × ν)} {p : κ}
    (h : lookupAssoc ((k, v) :: rest) p = none) : k ≠ p ∧ lookupAssoc rest p = none := by
  by_cases hk : k = p
  · simp [lookupAssoc, hk] at h
  · exact ⟨hk, by simpa [lookupAssoc, hk] using h⟩

theorem fsWrite_fresh (fs : FS) (p d : Bytes) (h : lookupAssoc fs p = none) :
    fsWrite fs p d = fs ++ [(p, d)] := by
  induction fs with
  | nil => rfl
  | cons e rest ih =>
    obtain ⟨q, old⟩ := e
    obtain ⟨hq, hrest⟩ := lookupAssoc_cons_none h
    simp [fsWrite, hq, ih hrest]

theorem fsWrite_append_same (fs : FS) (p d : Bytes) (h : lookupAssoc fs p = none) :
    fsWrite (fs ++ [(p, d)]) p d = fs ++ [(p, d)] := by
  induction fs with
  | nil => simp [fsWrite, List.drop_length]
  | cons e rest ih =>
    obtain ⟨q, old⟩ := e
    obtain ⟨hq, hrest⟩ := lookupAssoc_cons_none h
    simp [fsWrite, hq, ih hrest]

theorem lookupAssoc_append_self {κ ν : Type} [DecidableEq κ] (fs : List (κ × ν)) (p : κ) (v : ν)
    (h : lookupAssoc fs p = none) : lookupAssoc (fs ++ [(p, v)]) p = some v := by
  induction fs with
  | nil => simp [lookupAssoc]
  | cons e rest ih =>
    obtain ⟨q, old⟩ := e
    obtain ⟨hq, hrest⟩ := lookupAssoc_cons_none h
    simp [lookupAssoc, hq, ih hrest]

theorem lookupAssoc_append_other {κ ν : Type} [DecidableEq κ] (fs : List (κ × ν)) (p q : κ)
    (v : ν) (hq : q ≠ p) : lookupAssoc (fs ++ [(p, v)]) q = lookupAssoc fs q := by
  induction fs with
  | nil => simp [lookupAssoc, Ne.symm hq]
  | cons e rest ih =>
    obtain ⟨k, w⟩ := e
    by_cases hk : k = q
    · simp [lookupAssoc, hk]
    · simp [lookupAssoc, hk, ih]

theorem keys_ne_of_lookup_none {κ ν : Type} [DecidableEq κ] (fs : List (κ × ν)) (p : κ)
    (h : lookupAssoc fs p = none) : ∀ e ∈ fs, e.1 ≠ p := by
  induction fs with
  | nil => intro e he; cases he
  | cons a rest ih =>
    obtain ⟨q, w⟩ := a
    obtain ⟨hq, hrest⟩ := lookupAssoc_cons_none h
    intro e he
    rcases List.mem_cons.mp he with rfl | hm
    · exact hq
    · exact ih hrest e hm

theorem filter_key_append_one (fs : FS) (p : Bytes) (v : Bytes)
    (h : lookupAssoc fs p = none) :
    ((fs ++ [(p, v)]).filter (fun e => e.1 == p)).length = 1 := by
  rw [List.filter_append]
  have hnil : fs.filter (fun e => e.1 == p) = [] := by
    rw [List.filter_eq_nil_iff]
    intro a ha
    simpa using keys_ne_of_lookup_none fs p h a ha
  simp [hnil]

/- ----------------------------------------------------------------
   Claim theorems.
   ---------------------------------------------------------------- -/

/-- Claim C1: the spec states that deserializing a well-formed Blob, Tree or
Commit payload, serializing the result and deserializing again yields the same
value. For Tree payloads the code cannot satisfy this: on the canonical
well-formed single-leaf payload `100644 a.txt NUL <20 digest bytes>`
(the leaf format of the spec), `Tree::deserialize` panics, because
`TreeLeaf::deserialize` finds the NUL at index 5 of the suffix after the space
and then slices `bytes[7..5]`, an out-of-order byte slice. The first
deserialize aborts, so the round trip fails on this well-formed input. -/
theorem C1_tree_roundtrip_code_bug :
    Tree.deserialize c1TreePayload = RRes.panic "slice index out of range" := by decide

/-- Claim C2: the spec states `serialize(parse(x)) == x` for well-formed
Commit payloads and that the scenario payload parses to
`tree -> [digest], parent -> [digest], message = "Initial commit\n"`. The code
does neither: the value of the first block is taken as `raw[1..=nl]` (dropping
only one byte instead of the key and the space), the remainder starting at the
first newline is then swallowed whole as `message`, the `parent` key is never
produced, and serialization emits every key twice, so the round trip changes
the bytes. -/
theorem C2_commit_kvlm_code_bug :
    kvlm_parse c2Payload = RRes.ok c2BuggyMap ∧
    c2BuggyMap ≠ c2ClaimedMap ∧
    kvlm_serializie c2BuggyMap = RRes.ok c2RoundTrip ∧
    c2RoundTrip ≠ c2Payload := by decide

/-- Claim C3: the spec states that a successful checkout materializes every
leaf of every reachable Tree. The code does not: in `tree_checkout`, the
sub-tree arm ends with `return tree_checkout(..)`, so every leaf after the
first sub-tree leaf is skipped. Checking out `c3Tree` (a sub-tree leaf `d`
followed by a blob leaf `f`) into a fresh target creates only `tgt/` and
`tgt/d/` and reports success; the file `tgt/f` is never created. The target
validation half of the claim does hold: a non-empty target is rejected before
any mutation. -/
theorem C3_checkout_code_bug :
    cmd_checkout 100 c3Store (Obj.tree c3Tree) [strBytes "tgt"] [] =
      RRes.ok [([strBytes "tgt"], CEntry.dir), ([strBytes "tgt", strBytes "d"], CEntry.dir)] ∧
    lookupAssoc ([([strBytes "tgt"], CEntry.dir),
        ([strBytes "tgt", strBytes "d"], CEntry.dir)] : CheckFs)
      [strBytes "tgt", strBytes "f"] = none ∧
    cmd_checkout 100 c3Store (Obj.tree c3Tree) [strBytes "tgt"]
      [([strBytes "tgt"], CEntry.dir), ([strBytes "tgt", strBytes "x"], CEntry.file [])] =
      RRes.err "target is not empty" := by decide

/-- Claim C4 counterexample: the claim states that Tree payload parsing
returns an error on every malformed payload. The payload `"1 "` (mode field of
length 1, no path, no digest — not a concatenation of well-formed leaves) is a
counterexample: `Tree::deserialize` returns a successful empty tree, because
its `while let Ok` loop discards the leaf-level error. -/
theorem C4_counterexample :
    Tree.deserialize [49, 32] = RRes.ok { leaves := [] } := by decide

/-- Claim C4 amended: `TreeLeaf::deserialize` does report a bad-mode error
when the space is not at offset 5 or 6, but `Tree::deserialize` itself never
returns an error for any payload: it stops at the first failing leaf and
returns the successfully parsed prefix, silently dropping malformed trailing
data; and a payload truncated before the 20 digest bytes panics (the slice
`bytes[nul_pos+1..nul_pos+21]` is out of bounds, the 20-byte check in the
source being dead code) rather than returning a truncated-digest error, as the
leaf `100644 abcdefg NUL` with no digest bytes shows. -/
theorem C4_amended :
    (∀ (bytes : Bytes) (e : String), Tree.deserialize bytes ≠ RRes.err e) ∧
    (∀ (bytes : Bytes) (spc : Nat), findByte 32 bytes = some spc → ¬(spc = 5 ∨ spc = 6) →
      TreeLeaf.deserialize bytes = RRes.err "Mode string wrong length. Expected 5 or 6 bytes") ∧
    TreeLeaf.deserialize (strBytes "100644 abcdefg" ++ [0]) =
      RRes.panic "slice index out of range" := by
  refine ⟨?_, ?_, by decide⟩
  · exact fun bytes e => treeLoop_not_err (bytes.length + 1) bytes [] e
  · intro bytes spc h hn
    simp only [TreeLeaf.deserialize, h]
    rw [if_neg hn]

/-- Witness for C4_amended at the concrete malformed payload `"1 "`. -/
theorem C4_witness :
    (¬((1 : Nat) = 5 ∨ (1 : Nat) = 6)) ∧
    TreeLeaf.deserialize [49, 32] = RRes.err "Mode string wrong length. Expected 5 or 6 bytes" ∧
    Tree.deserialize [49, 32] ≠ RRes.err "x" :=
  ⟨by decide, C4_amended.2.1 [49, 32] 1 (by decide) (by decide), C4_amended.1 [49, 32] "x"⟩

/-- Claim C5: on a decompressed frame `kind SP size NUL payload` whose size
field parses to a value different from the payload length, `object_read`
returns the bad-length error and never a parsed object; and when the declared
length matches, a kind tag outside commit/tree/tag/blob is rejected with the
unknown-type error. -/
theorem C5_object_read_size_and_kind (fmt size payload : Bytes)
    (h1 : 32 ∉ fmt) (h2 : 0 ∉ fmt) (h3 : 0 ∉ size)
    (h4 : size ≠ []) (h5 : size.all isDigitB = true)
    (h6 : decValue size < 18446744073709551616) :
    (decValue size ≠ payload.length →
      object_read_raw (frameRaw fmt size payload) = RRes.err "Malformed object: bad length") ∧
    (decValue size = payload.length →
      fmt ≠ strBytes "commit" → fmt ≠ strBytes "tree" → fmt ≠ strBytes "tag" →
      fmt ≠ strBytes "blob" →
      object_read_raw (frameRaw fmt size payload) = RRes.err "Unknown object type") := by
  rw [object_read_raw_frame fmt size payload h1 h2 h3]
  rw [if_pos (digits_validUtf8 size h5)]
  rw [parseUsize_digits size h4 h5 h6]
  constructor
  · intro hne
    simp [hne]
  · intro he h7 h8 h9 h10
    simp [he, h7, h8, h9, h10]

/-- Witness for C5 at the concrete frame `x SP 1 NUL A`: the declared length 1
matches the payload length and the kind tag `x` is unknown. -/
theorem C5_witness :
    decValue [49] = ([65] : Bytes).length ∧
    object_read_raw (frameRaw [120] [49] [65]) = RRes.err "Unknown object type" :=
  ⟨by decide,
    (C5_object_read_size_and_kind [120] [49] [65] (by decide) (by decide) (by decide)
      (by decide) (by decide) (by decide)).2 (by decide) (by decide) (by decide) (by decide)
      (by decide)⟩

/-- Claim C6: writing an object twice with persistence yields the same digest
both times, succeeds both times, writes the compressed frame at the
digest-derived path `objects/<2 hex>/<38 hex>`, leaves exactly one file at
that path, leaves it unchanged after the second write, and touches no other
path. Stated for a store that does not yet hold the object (content
addressing makes the existing file identical in the claim scenario) and for an
object whose serialization succeeds. -/
theorem C6_idempotent_write (obj : Obj) (data : Bytes) (fs0 : FS)
    (hser : serializeObj obj = RRes.ok data)
    (hfresh : lookupAssoc fs0 (objects_path (sha1HexLower (frameBytes obj data))) = none) :
    (object_write true fs0 obj).1 = RRes.ok (sha1HexLower (frameBytes obj data)) ∧
    (object_write true (object_write true fs0 obj).2 obj).1 = (object_write true fs0 obj).1 ∧
    (object_write true (object_write true fs0 obj).2 obj).2 = (object_write true fs0 obj).2 ∧
    lookupAssoc (object_write true fs0 obj).2
      (objects_path (sha1HexLower (frameBytes obj data))) =
      some (compress (frameBytes obj data)) ∧
    (((object_write true fs0 obj).2).filter
      (fun e => e.1 == objects_path (sha1HexLower (frameBytes obj data)))).length = 1 ∧
    (∀ q : Bytes, q ≠ objects_path (sha1HexLower (frameBytes obj data)) →
      lookupAssoc (object_write true fs0 obj).2 q = lookupAssoc fs0 q) := by
  have hw : object_write true fs0 obj =
      (RRes.ok (sha1HexLower (frameBytes obj data)),
        fs0 ++ [(objects_path (sha1HexLower (frameBytes obj data)),
          compress (frameBytes obj data))]) := by
    simp only [object_write, hser, if_pos]
    rw [fsWrite_fresh fs0 _ _ hfresh]
  have hw2 : object_write true (fs0 ++ [(objects_path (sha1HexLower (frameBytes obj data)),
      compress (frameBytes obj data))]) obj =
      (RRes.ok (sha1HexLower (frameBytes obj data)),
        fs0 ++ [(objects_path (sha1HexLower (frameBytes obj data)),
          compress (frameBytes obj data))]) := by
    simp only [object_write, hser, if_pos]
    rw [fsWrite_append_same fs0 _ _ hfresh]
  refine ⟨by rw [hw], by rw [hw, hw2], by rw [hw, hw2], ?_, ?_, ?_⟩
  · rw [hw]
    exact lookupAssoc_append_self fs0 _ _ hfresh
  · rw [hw]
    exact filter_key_append_one fs0 _ _ hfresh
  · intro q hq
    rw [hw]
    exact lookupAssoc_append_other fs0 _ q _ hq

/-- Witness for C6: writing the blob `hi` into an empty store. -/
theorem C6_witness :
    serializeObj (Obj.blob [104, 105]) = RRes.ok [104, 105] ∧
    lookupAssoc ([] : FS)
      (objects_path (sha1HexLower (frameBytes (Obj.blob [104, 105]) [104, 105]))) = none ∧
    (object_write true [] (Obj.blob [104, 105])).1 =
      RRes.ok (sha1HexLower (frameBytes (Obj.blob [104, 105]) [104, 105])) :=
  ⟨rfl, rfl, (C6_idempotent_write (Obj.blob [104, 105]) [104, 105] [] rfl rfl).1⟩

/-- Claim C7: `object_write` without a repo handle returns exactly the result
the persisting call would return (for every object, even those whose
serialization panics), mutates nothing in the store, and, whenever
serialization succeeds, the result is the digest of the frame
`kind SP decimal-length NUL payload`. -/
theorem C7_dry_run_write (obj : Obj) (fs : FS) :
    (object_write false fs obj).1 = (object_write true fs obj).1 ∧
    (object_write false fs obj).2 = fs ∧
    (∀ data : Bytes, serializeObj obj = RRes.ok data →
      (object_write false fs obj).1 = RRes.ok (sha1HexLower (frameBytes obj data))) := by
  refine ⟨?_, ?_, ?_⟩
  · cases h : serializeObj obj <;> simp [object_write, h]
  · cases h : serializeObj obj <;> simp [object_write, h]
  · intro data hd
    simp [object_write, hd]

/-- Witness for C7 at the blob `h`. -/
theorem C7_witness :
    serializeObj (Obj.blob [104]) = RRes.ok [104] ∧
    (object_write false [] (Obj.blob [104])).1 =
      RRes.ok (sha1HexLower (frameBytes (Obj.blob [104]) [104])) :=
  ⟨rfl, (C7_dry_run_write (Obj.blob [104]) []).2.2 [104] rfl⟩

/-- Claim C8: the spec states every parsed leaf digest is rendered as exactly
40 uppercase hex characters, two per raw byte. On the well-formed payload
`100644 abcdefg NUL <20 bytes 0xAB>` the parser succeeds but renders a
39-character sha: the 20 bytes are taken at the wrong offset (the relative NUL
index is reused as absolute), the window always contains the path bytes and
the NUL byte itself, and the unpadded upper-hex `format!` renders the NUL as
the single character `0`. -/
theorem C8_digest_rendering_code_bug :
    Tree.deserialize c8Payload =
      RRes.ok { leaves := [{ mode := 100644, path := [], sha := c8Sha }] } ∧
    c8Sha.length = 39 := by decide

/-- Claim C9 counterexample: the claim states object read/deserialize always
returns a typed error and never panics, naming a non-UTF-8 Commit payload in
particular. `Commit::deserialize` of the single byte `0xFF` panics in
`str::from_utf8(..).unwrap()`. -/
theorem C9_counterexample :
    commitDeserialize [255] = RRes.panic "invalid utf-8" := by decide

/-- Claim C9 amended: object read/deserialize does NOT uniformly return typed
error results on malformed input. Every Commit payload that is not valid UTF-8
panics (the `unwrap` in `Commit::deserialize`); every frame whose size field
is not valid UTF-8 panics (the `expect` in `object_read`); a tree leaf
truncated before its 20 digest bytes panics via out-of-bounds slicing; a
well-framed `tag` object panics in the `todo!` of `Tag::deserialize`; a commit
payload whose first newline precedes the first space at a nonzero offset
panics in the `todo!` of `kvlm_parse_inner`; and some malformed tree payloads
(such as `"1 "`) are even accepted as successful parses instead of erroring. -/
theorem C9_amended :
    (∀ bytes : Bytes, validUtf8 bytes = false →
      commitDeserialize bytes = RRes.panic "invalid utf-8") ∧
    (∀ fmt size payload : Bytes, 32 ∉ fmt → 0 ∉ fmt → 0 ∉ size → validUtf8 size = false →
      object_read_raw (frameRaw fmt size payload) = RRes.panic "valid utf8 for size field") ∧
    TreeLeaf.deserialize (strBytes "100644 abcdefg" ++ [0]) =
      RRes.panic "slice index out of range" ∧
    object_read_raw (frameRaw (strBytes "tag") [49] [65]) =
      RRes.panic "not yet implemented: deserialize tag" ∧
    commitDeserialize (strBytes "ab" ++ [10] ++ strBytes "cd ef") =
      RRes.panic "not yet implemented: return error here" ∧
    Tree.deserialize [49, 32] = RRes.ok { leaves := [] } := by
  refine ⟨?_, ?_, by decide, by decide, by decide, by decide⟩
  · intro bytes h
    simp [commitDeserialize, h]
  · intro fmt size payload h1 h2 h3 hv
    rw [object_read_raw_frame fmt size payload h1 h2 h3]
    simp [hv]

/-- Witness for C9_amended at the byte `0xFF` as a Commit payload and as the
size field of a frame with kind tag `b`. -/
theorem C9_witness :
    validUtf8 [255] = false ∧
    commitDeserialize [255] = RRes.panic "invalid utf-8" ∧
    object_read_raw (frameRaw [98] [255] []) = RRes.panic "valid utf8 for size field" :=
  ⟨by decide, C9_amended.1 [255] (by decide),
    C9_amended.2.1 [98] [255] [] (by decide) (by decide) (by decide) (by decide)⟩

/-- Claim C10 counterexample: the claim states that any leaf whose sha
contains a lowercase hex digit (or any character outside 0-9, A-F) makes
serialization abort, and that panic-freedom requires an even-length sha. A
leaf with the one-character lowercase sha `a` refutes both: `chunks_exact(2)`
yields no chunk for it, so serialization succeeds and returns bytes. -/
theorem C10_counterexample :
    Tree.serialize { leaves := [{ mode := 100644, path := strBytes "p", sha := [97] }] } =
      RRes.ok (strBytes "100644 p" ++ [0]) := by decide

/-- Claim C10 amended: Tree serialization panics exactly when some leaf sha
contains, within its complete two-character pairs (a trailing unpaired
character is ignored), a character outside 0-9 and uppercase A-F; it returns
bytes exactly when every complete pair of every leaf sha is made of such
characters. In particular an even-length sha containing a lowercase hex digit
— the write-path digest rendering — always panics. -/
theorem C10_amended (t : Tree) :
    (Tree.serialize t).isOk = t.leaves.all (fun l => pairsValid l.sha) ∧
    (Tree.serialize t).isPanic = t.leaves.any (fun l => !pairsValid l.sha) :=
  serializeLeaves_spec t.leaves

end Wyag
